import Mathlib

/-!
Shallow embedding of the access-control and content-mutation core of the
digital-media-catalog repository (Node.js/Express photo catalog).

Source layout embedded here:
* business layer (Mongo variant): canViewPhoto, canEditPhoto,
  updatePhotoWithVisibility, addComment, getPhotoComments, loginUser;
* persistence layer (Mongo variant): findPhotoById, updatePhoto,
  createComment, getCommentsByPhotoId, searchPhotos;
* business layer (CLI variant, business.js): addTagToPhoto, backed by the
  JSON-file persistence updatePhoto which supports a tags field.

Modelling conventions: a Mongo collection is a Lean list in insertion
order; findOne on an id is the first list entry with that id; updateOne
rewrites the first matching entry; JavaScript string falsiness (the empty
string) and numeric falsiness (zero) are modelled explicitly where the
source relies on them; bcrypt comparison is an abstract boolean function
passed as a parameter.
-/

/-- Photo record, after the data model of the repository. -/
structure Photo where
  id : Int
  filename : String
  title : String
  description : String
  tags : List String
  albums : List Int
  visibility : String
  owner : Int
  date : String
deriving Repr, DecidableEq

/-- User record as stored by the identity collection (password is the stored hash). -/
structure User where
  id : Int
  name : String
  email : String
  password : String
deriving Repr, DecidableEq

/-- Comment record as stored by the comments collection. -/
structure Comment where
  id : Nat
  photoId : Int
  userId : Int
  username : String
  text : String
  createdAt : Nat
deriving Repr, DecidableEq

/-- JavaScript strict equality between a numeric field and a
possibly-absent user id: a number is never strictly equal to null. -/
def ownerMatches (owner : Int) (userId : Option Int) : Bool :=
  match userId with
  | some u => owner == u
  | none => false

/-- JavaScript truthiness of a possibly-absent numeric user id:
null/undefined and the number 0 are falsy, every other number is truthy. -/
def jsTruthyId (userId : Option Int) : Bool :=
  match userId with
  | some u => u != 0
  | none => false

/-- business.canViewPhoto (Mongo variant): null photo is denied; public
photos are viewable; private photos only by their owner; anything else
(including an out-of-range visibility string) is denied. -/
def canViewPhoto (photo : Option Photo) (userId : Option Int) : Bool :=
  match photo with
  | none => false
  | some p =>
    if p.visibility == "public" then true
    else if p.visibility == "private" && ownerMatches p.owner userId then true
    else false

/-- business.canEditPhoto (Mongo variant): `if (!photo || !userId) return false;
return photo.owner === userId` — note the JavaScript truthiness test on the
user id, under which the id 0 counts as absent. -/
def canEditPhoto (photo : Option Photo) (userId : Option Int) : Bool :=
  match photo with
  | none => false
  | some p =>
    if !(jsTruthyId userId) then false
    else ownerMatches p.owner userId

/-- persistence.findPhotoById: findOne on the id field, i.e. the first
entry of the collection carrying that id. -/
def findPhotoById (photos : List Photo) (photoId : Int) : Option Photo :=
  photos.find? (fun p => p.id == photoId)

/-- updateOne semantics: rewrite the first entry matching the id, leave
everything else in place. -/
def updateFirst (photos : List Photo) (photoId : Int) (f : Photo → Photo) : List Photo :=
  match photos with
  | [] => []
  | p :: rest => if p.id == photoId then f p :: rest else p :: updateFirst rest photoId f

/-- A partial update as sent to persistence.updatePhoto: each field
independently present (some) or absent (undefined). -/
structure PhotoPatch where
  title : Option String
  description : Option String
  visibility : Option String
deriving Repr, DecidableEq

/-- The $set document applied to a matched photo: present fields replace
the stored values, absent fields leave them untouched. -/
def applyPatchFields (patch : PhotoPatch) (p : Photo) : Photo :=
  { p with
    title := patch.title.getD p.title
    description := patch.description.getD p.description
    visibility := patch.visibility.getD p.visibility }

/-- persistence.updatePhoto (Mongo variant): copies the defined fields of
the update object into the $set document; with no field present it reports
success without touching the store; otherwise success is matchedCount > 0. -/
def persistUpdatePhoto (photos : List Photo) (photoId : Int) (patch : PhotoPatch) :
    Bool × List Photo :=
  if patch.title.isNone && patch.description.isNone && patch.visibility.isNone then
    (true, photos)
  else
    ((findPhotoById photos photoId).isSome, updateFirst photos photoId (applyPatchFields patch))

/-- Result object of the mutation operations: `{success, message}`. -/
structure OpResult where
  success : Bool
  message : String
deriving Repr, DecidableEq

/-- business.updatePhotoWithVisibility: look the photo up, gate on
canEditPhoto, copy the defined fields of the update object, persist. -/
def updatePhotoWithVisibility (photos : List Photo) (photoId : Int) (userId : Option Int)
    (patch : PhotoPatch) : OpResult × List Photo :=
  match findPhotoById photos photoId with
  | none => (⟨false, "Photo not found"⟩, photos)
  | some photo =>
    if !(canEditPhoto (some photo) userId) then
      (⟨false, "You do not have permission to edit this photo"⟩, photos)
    else
      let res := persistUpdatePhoto photos photoId patch
      if res.1 then (⟨true, "Photo updated successfully"⟩, res.2)
      else (⟨false, "Failed to update photo"⟩, res.2)

/-- A concrete photo used in the worked examples below. -/
def demoPhoto : Photo :=
  ⟨1, "a.jpg", "Sunset", "evening", ["sunset"], [4], "private", 7, "2024-01-01"⟩

/-! ## String helpers (JavaScript trim and toLowerCase, in executable form) -/

/-- Drop leading whitespace characters from a character list. -/
def dropWs : List Char → List Char
  | [] => []
  | c :: rest => if c.isWhitespace then dropWs rest else c :: rest

/-- JavaScript String.prototype.trim, modelled over the ASCII whitespace
characters: drop leading and trailing whitespace. -/
def jsTrim (s : String) : String :=
  ⟨(dropWs ((dropWs s.data).reverse)).reverse⟩

/-- JavaScript String.prototype.toLowerCase, modelled characterwise. -/
def lowerStr (s : String) : String :=
  ⟨s.data.map Char.toLower⟩

/-! ## Comments -/

/-- Largest comment id present in the collection (0 when empty); the store
finds it by sorting on id descending with limit 1. -/
def maxCommentId (comments : List Comment) : Nat :=
  comments.foldr (fun c acc => max c.id acc) 0

/-- Next store-assigned comment id: one past the largest existing id, or 1
for an empty collection. -/
def nextCommentId (comments : List Comment) : Nat :=
  maxCommentId comments + 1

/-- persistence.createComment: build the record with the next sequential id
and the server timestamp, append it to the collection, return it. -/
def createComment (comments : List Comment) (photoId : Int) (userId : Int)
    (username : String) (text : String) (now : Nat) : Comment × List Comment :=
  let c : Comment := ⟨nextCommentId comments, photoId, userId, username, text, now⟩
  (c, comments ++ [c])

/-- Result object of business.addComment: `{success, message}` plus the
created comment on success. -/
structure CommentOpResult where
  success : Bool
  message : String
  comment : Option Comment
deriving Repr, DecidableEq

/-- business.addComment: reject blank text, then missing photo, then a
caller who cannot view the photo; otherwise create and persist the comment
with its text trimmed. -/
def addComment (photos : List Photo) (comments : List Comment) (photoId : Int)
    (userId : Int) (username : String) (commentText : String) (now : Nat) :
    CommentOpResult × List Comment :=
  if jsTrim commentText == "" then
    (⟨false, "Comment cannot be empty", none⟩, comments)
  else
    match findPhotoById photos photoId with
    | none => (⟨false, "Photo not found", none⟩, comments)
    | some photo =>
      if !(canViewPhoto (some photo) (some userId)) then
        (⟨false, "You cannot comment on this photo", none⟩, comments)
      else
        let res := createComment comments photoId userId username (jsTrim commentText) now
        (⟨true, "Comment added successfully", some res.1⟩, res.2)

/-- Ascending creation-time order on comments (the sort key of
sort({createdAt: 1})). -/
def commentLe (a b : Comment) : Prop := a.createdAt ≤ b.createdAt

/-- Strict creation order: earlier createdAt, ties broken by smaller id. -/
def commentLex (a b : Comment) : Prop :=
  a.createdAt < b.createdAt ∨ (a.createdAt = b.createdAt ∧ a.id < b.id)

instance (a b : Comment) : Decidable (commentLe a b) :=
  inferInstanceAs (Decidable (a.createdAt ≤ b.createdAt))

instance (a b : Comment) : Decidable (commentLex a b) :=
  inferInstanceAs (Decidable (a.createdAt < b.createdAt ∨
    (a.createdAt = b.createdAt ∧ a.id < b.id)))

/-- The contract of the sort({createdAt: 1}) step: the result is some
reordering of the input that is ascending in createdAt. MongoDB specifies
nothing about the relative order of documents whose sort-key values are
equal, so the step is embedded as a relation between the input and the
admissible outputs rather than as a function. -/
def mongoSortResult (input result : List Comment) : Prop :=
  result.Perm input ∧ result.Pairwise commentLe

/-- persistence.getCommentsByPhotoId: find({photoId}) followed by
sort({createdAt: 1}); business.getPhotoComments forwards to it directly.
Relational embedding: the proposition holds of every list the call may
return. -/
def getCommentsByPhotoIdRel (comments : List Comment) (photoId : Int)
    (result : List Comment) : Prop :=
  mongoSortResult (comments.filter (fun c => c.photoId == photoId)) result

/-! ## Authentication -/

/-- The summary of a user returned on successful login (no password hash). -/
structure UserSummary where
  id : Int
  name : String
  email : String
deriving Repr, DecidableEq

/-- Result object of business.loginUser. -/
structure LoginResult where
  success : Bool
  message : String
  user : Option UserSummary
deriving Repr, DecidableEq

/-- persistence.findUserByEmail: findOne on the email field. -/
def findUserByEmail (users : List User) (email : String) : Option User :=
  users.find? (fun u => u.email == email)

/-- business.loginUser: reject blank fields, then look the email up, then
verify the password against the stored hash (bcrypt.compare, abstracted as
the function argument); the unknown-email and wrong-password branches
return the same result object. -/
def loginUser (users : List User) (verify : String → String → Bool)
    (email password : String) : LoginResult :=
  if email == "" || password == "" then
    ⟨false, "Email and password are required", none⟩
  else
    match findUserByEmail users email with
    | none => ⟨false, "Invalid email or password", none⟩
    | some user =>
      if !(verify password user.password) then
        ⟨false, "Invalid email or password", none⟩
      else
        ⟨true, "Login successful", some ⟨user.id, user.name, user.email⟩⟩

/-! ## Search -/

/-- Whether the first list is an initial segment of the second. -/
def leadsWith : List Char → List Char → Bool
  | [], _ => true
  | _ :: _, [] => false
  | a :: as, b :: bs => a == b && leadsWith as bs

/-- Whether the needle occurs contiguously inside the haystack; this is
indexOf(needle) !== -1 on strings. -/
def occursWithin (needle : List Char) : List Char → Bool
  | [] => needle.isEmpty
  | c :: rest => leadsWith needle (c :: rest) || occursWithin needle rest

/-- String containment as used by the search loop. -/
def strContainsSub (hay needle : String) : Bool :=
  occursWithin needle.data hay.data

/-- One iteration of the persistence.searchPhotos loop: the photo matches
when the lowercased title, description, or any tag contains the lowercased
query; empty title/description are falsy and skip their check. -/
def photoMatches (searchTerm : String) (p : Photo) : Bool :=
  (p.title != "" && strContainsSub (lowerStr p.title) searchTerm) ||
  (p.description != "" && strContainsSub (lowerStr p.description) searchTerm) ||
  (p.tags.any (fun t => strContainsSub (lowerStr t) searchTerm))

/-- persistence.searchPhotos: scan the whole collection, keep the matches. -/
def persistSearchPhotos (photos : List Photo) (query : String) : List Photo :=
  photos.filter (photoMatches (lowerStr query))

/-- Modelled from the spec: the business-layer searchPhotos(query, userId)
that the GET /search route calls is absent from the provided source (only
the persistence-layer search, which takes no user id, and the route are
present). Per the spec, the result set must additionally satisfy
canView(photo, actingUserId) for every returned photo, so the missing
layer is modelled as the persistence search filtered by the view policy. -/
def businessSearchPhotos (photos : List Photo) (query : String) (userId : Option Int) :
    List Photo :=
  (persistSearchPhotos photos query).filter (fun p => canViewPhoto (some p) userId)

/-- The GET /search route: a query that is empty after trimming never
reaches the search and yields the empty result list. -/
def searchRoute (photos : List Photo) (query : String) (userId : Option Int) : List Photo :=
  if jsTrim query == "" then [] else businessSearchPhotos photos query userId

/-! ## Tags (CLI variant: business.addTagToPhoto over the JSON-file store) -/

/-- The JSON-file persistence.updatePhoto invoked with a {tags} update:
set the tags of the first photo with the given id, report whether one was
found. -/
def persistUpdateTags (photos : List Photo) (photoId : Int) (newTags : List String) :
    Bool × List Photo :=
  ((findPhotoById photos photoId).isSome,
   updateFirst photos photoId (fun p => { p with tags := newTags }))

/-- business.addTagToPhoto: missing photo, then non-owner, then exact
duplicate tag are rejected in that order; otherwise the tag is appended to
a copy of the tag list and persisted. The function itself performs no
emptiness check on the tag (the CLI presentation layer does that before
calling it). -/
def addTagToPhoto (photos : List Photo) (photoId : Int) (userId : Int) (tag : String) :
    OpResult × List Photo :=
  match findPhotoById photos photoId with
  | none => (⟨false, "Photo not found."⟩, photos)
  | some photo =>
    if photo.owner != userId then
      (⟨false, "Access denied. You do not own this photo."⟩, photos)
    else if photo.tags.contains tag then
      (⟨false, "Photo already has this tag."⟩, photos)
    else
      let res := persistUpdateTags photos photoId (photo.tags ++ [tag])
      (⟨true, "Updated!"⟩, res.2)

/-! ## Demonstration data and ordering relations used in the theorems -/

/-- C4 counterexample: with a photo whose owner field is the number 0 and
acting user id 0, the source returns false (JavaScript treats the id 0 as
falsy, hence absent), while the claim, which only requires the id to be
present and equal to the owner, demands true. -/
def zeroOwnerPhoto : Photo :=
  ⟨2, "b.jpg", "Beach", "shore", [], [], "public", 0, "2024-02-02"⟩

/-- The demonstration photo store: one private photo owned by user 7. -/
def demoPhotos : List Photo := [demoPhoto]

/-- Demonstration identity store: one registered user. -/
def demoUsers : List User :=
  [⟨1, "Alice", "a@x.com", "hash1"⟩]

/-- Demonstration hash verifier standing in for bcrypt.compare. -/
def demoVerify (password stored : String) : Bool :=
  (password == "secret") && (stored == "hash1")

/-- A demonstration comment store: two comments on photo 1 sharing a
timestamp, one later comment on photo 2. -/
def demoComments : List Comment :=
  [⟨1, 1, 7, "Alice", "first", 10⟩, ⟨2, 1, 9, "Bob", "second", 10⟩,
   ⟨3, 2, 7, "Alice", "other", 5⟩]

/-! ## Theorems about the access-control policy -/

/-- C1: for every photo record p and acting user id u (possibly absent),
canView is true exactly when p is public, or p is private and u is its
owner; in every other case — u absent, visibility neither defined value —
it is false, and a null photo is denied rather than throwing. -/
theorem canViewPhoto_spec (p : Photo) (u : Option Int) :
    (canViewPhoto (some p) u = true ↔
      (p.visibility = "public" ∨
        (p.visibility = "private" ∧ ∃ k, u = some k ∧ p.owner = k))) ∧
    canViewPhoto none u = false := by
  constructor
  · simp only [canViewPhoto, ownerMatches]
    cases u with
    | none =>
      split
      · next hpub =>
        simp only [beq_iff_eq] at hpub
        simp [hpub]
      · next hpub =>
        simp only [Bool.and_false, if_false]
        simp only [beq_iff_eq] at hpub
        simp [hpub]
    | some k =>
      split
      · next hpub =>
        simp only [beq_iff_eq] at hpub
        simp [hpub]
      · next hpub =>
        simp only [beq_iff_eq] at hpub
        split
        · next hpriv =>
          simp only [Bool.and_eq_true, beq_iff_eq] at hpriv
          simp only [true_iff]
          right
          exact ⟨hpriv.1, k, rfl, hpriv.2⟩
        · next hpriv =>
          simp only [Bool.and_eq_true, beq_iff_eq, not_and] at hpriv
          constructor
          · intro h
            exact absurd h (by simp)
          · rintro (h | ⟨h1, j, hj, hOwn⟩)
            · exact absurd h hpub
            · cases hj
              exact absurd (beq_iff_eq.mpr hOwn) (by simpa using hpriv h1)
  · rfl

/-- C4 is false as stated: at photo zeroOwnerPhoto and user id 0, the user
id is present and equals the owner, yet canEdit returns false. -/
theorem canEditPhoto_claim_counterexample :
    ¬(canEditPhoto (some zeroOwnerPhoto) (some 0) = true ↔
      ((some (0 : Int)).isSome = true ∧ zeroOwnerPhoto.owner = 0)) := by
  decide

/-- C4 amended: canEdit is true iff the acting user id is present, nonzero
(the source tests JavaScript truthiness, under which 0 counts as absent),
and equal to the owner of the photo; the visibility field has no effect,
and a null photo yields false without throwing. -/
theorem canEditPhoto_spec_amended (p : Photo) (u : Option Int) :
    (canEditPhoto (some p) u = true ↔ ∃ k, u = some k ∧ k ≠ 0 ∧ p.owner = k) ∧
    canEditPhoto none u = false ∧
    (∀ v, canEditPhoto (some { p with visibility := v }) u = canEditPhoto (some p) u) := by
  refine ⟨?_, rfl, fun v => rfl⟩
  simp only [canEditPhoto, jsTruthyId, ownerMatches]
  cases u with
  | none => simp
  | some k =>
    by_cases hk : k = 0
    · subst hk
      simp
    · have hk2 : (k != 0) = true := by simpa using hk
      simp only [hk2, Bool.not_true, Bool.false_eq_true, if_false, beq_iff_eq]
      constructor
      · intro h
        exact ⟨k, rfl, hk, h⟩
      · rintro ⟨j, hj, _, hOwn⟩
        cases hj
        exact hOwn

/-! ## Theorems about search -/

/-- Unfolding of a successful strict-equality owner test. -/
theorem ownerMatches_eq_true {owner : Int} {u : Option Int}
    (h : ownerMatches owner u = true) : ∃ k, u = some k ∧ owner = k := by
  cases u with
  | none => simp [ownerMatches] at h
  | some k => exact ⟨k, rfl, by simpa [ownerMatches] using h⟩

/-- A viewable private photo belongs to the acting user. -/
theorem canView_private {p : Photo} {u : Option Int}
    (hvis : p.visibility = "private") (h : canViewPhoto (some p) u = true) :
    ∃ k, u = some k ∧ p.owner = k := by
  simp only [canViewPhoto, hvis] at h
  simp only [show (("private" : String) == "public") = false from by decide,
    Bool.false_eq_true, if_false,
    show (("private" : String) == "private") = true from by decide,
    Bool.true_and] at h
  split at h
  · next hm => exact ownerMatches_eq_true hm
  · exact absurd h (by simp)

/-- C2: every photo returned by the search route is viewable by the acting
user — in particular a returned private photo is owned by that user — and
a query that is blank after trimming yields the empty result list. -/
theorem searchPhotos_spec (photos : List Photo) (q : String) (u : Option Int) :
    ((searchRoute photos q u).all (fun p => canViewPhoto (some p) u) = true) ∧
    (∀ p, p ∈ searchRoute photos q u → p.visibility = "private" →
      ∃ k, u = some k ∧ p.owner = k) ∧
    (jsTrim q = "" → searchRoute photos q u = []) := by
  refine ⟨?_, ?_, ?_⟩
  · rw [List.all_eq_true]
    intro p hp
    simp only [searchRoute] at hp
    split at hp
    · simp at hp
    · exact List.of_mem_filter (p := fun p => canViewPhoto (some p) u) hp
  · intro p hp hvis
    refine canView_private hvis ?_
    simp only [searchRoute] at hp
    split at hp
    · simp at hp
    · exact List.of_mem_filter (p := fun p => canViewPhoto (some p) u) hp
  · intro hq
    simp [searchRoute, hq]

/-! ## Theorems about login -/

/-- C9 counterexample: with a blank password for a registered email — the
email matches a user and the password fails verification — loginUser
returns the fields-required result, not the invalid-credentials result, so
over all email/password pairs the wrong-password failure is not always the
InvalidCredentialsError value. -/
theorem loginUser_blankPassword_counterexample :
    findUserByEmail demoUsers "a@x.com" = some ⟨1, "Alice", "a@x.com", "hash1"⟩ ∧
    demoVerify "" "hash1" = false ∧
    loginUser demoUsers demoVerify "a@x.com" ""
      = ⟨false, "Email and password are required", none⟩ ∧
    (⟨false, "Email and password are required", none⟩ : LoginResult)
      ≠ ⟨false, "Invalid email or password", none⟩ := by
  decide

/-- C9 amended: for non-blank email and password, the unknown-email case
and the wrong-password case return the very same result object, so those
two failures are indistinguishable to the caller; a blank email or
password is instead rejected up front with a distinct fields-required
result, before any user lookup. -/
theorem loginUser_indistinguishable (users : List User) (verify : String → String → Bool)
    (email password : String) (hEmail : email ≠ "") (hPw : password ≠ "")
    (hfail : findUserByEmail users email = none ∨
      ∃ u, findUserByEmail users email = some u ∧ verify password u.password = false) :
    loginUser users verify email password = ⟨false, "Invalid email or password", none⟩ := by
  have h1 : (email == "") = false := by simpa using hEmail
  have h2 : (password == "") = false := by simpa using hPw
  simp only [loginUser, h1, h2, Bool.or_self, Bool.false_eq_true, if_false]
  rcases hfail with hnone | ⟨u, hu, hv⟩
  · rw [hnone]
  · rw [hu]
    simp [hv]

/-- C9 witness: a wrong password for a registered email and an unknown
email both produce the identical invalid-credentials result. -/
theorem loginUser_indistinguishable_witness :
    loginUser demoUsers demoVerify "a@x.com" "wrong" =
        ⟨false, "Invalid email or password", none⟩ ∧
      loginUser demoUsers demoVerify "nobody@x.com" "anything" =
        ⟨false, "Invalid email or password", none⟩ :=
  ⟨loginUser_indistinguishable demoUsers demoVerify "a@x.com" "wrong" (by decide) (by decide)
      (Or.inr ⟨⟨1, "Alice", "a@x.com", "hash1"⟩, by decide, by decide⟩),
    loginUser_indistinguishable demoUsers demoVerify "nobody@x.com" "anything" (by decide)
      (by decide) (Or.inl (by decide))⟩

/-! ## Lemmas about the update pipeline -/

/-- The $set document never touches the id field. -/
theorem applyPatchFields_id (patch : PhotoPatch) (p : Photo) :
    (applyPatchFields patch p).id = p.id := rfl

/-- The $set document never touches the owner field. -/
theorem applyPatchFields_owner (patch : PhotoPatch) (p : Photo) :
    (applyPatchFields patch p).owner = p.owner := rfl

/-- Applying the same $set document twice is the same as applying it once. -/
theorem applyPatchFields_idem (patch : PhotoPatch) (p : Photo) :
    applyPatchFields patch (applyPatchFields patch p) = applyPatchFields patch p := by
  cases patch with
  | mk t d v => cases t <;> cases d <;> cases v <;> simp [applyPatchFields]

/-- Edit rights are insensitive to a metadata patch (the owner is copied). -/
theorem canEditPhoto_applyPatchFields (patch : PhotoPatch) (p : Photo) (u : Option Int) :
    canEditPhoto (some (applyPatchFields patch p)) u = canEditPhoto (some p) u := rfl

/-- Looking the patched id up after updateOne returns the rewritten record,
provided the rewrite preserves ids. -/
theorem findPhotoById_updateFirst (photos : List Photo) (pid : Int) (f : Photo → Photo)
    (hf : ∀ p, (f p).id = p.id) :
    findPhotoById (updateFirst photos pid f) pid = (findPhotoById photos pid).map f := by
  induction photos with
  | nil => rfl
  | cons p rest ih =>
    by_cases h : (p.id == pid) = true
    · have hfp : ((f p).id == pid) = true := by rw [hf p]; exact h
      simp [updateFirst, findPhotoById, List.find?, h, hfp]
    · have h2 : (p.id == pid) = false := by simpa using h
      simpa [updateFirst, findPhotoById, List.find?, h2] using ih

/-- Rewriting the first match twice with an id-preserving idempotent
rewrite is the same as rewriting it once. -/
theorem updateFirst_idem (photos : List Photo) (pid : Int) (f : Photo → Photo)
    (hf : ∀ p, (f p).id = p.id) (hff : ∀ p, f (f p) = f p) :
    updateFirst (updateFirst photos pid f) pid f = updateFirst photos pid f := by
  induction photos with
  | nil => rfl
  | cons p rest ih =>
    by_cases h : (p.id == pid) = true
    · have hfp : ((f p).id == pid) = true := by rw [hf p]; exact h
      simp [updateFirst, h, hfp, hff]
    · have h2 : (p.id == pid) = false := by simpa using h
      simpa [updateFirst, h2] using ih

/-- Full evaluation of updatePhotoWithVisibility on a found photo whose
caller has edit rights: the call succeeds, and the store is untouched for
an all-absent patch and otherwise rewrites the matched record. -/
theorem updatePhotoWithVisibility_eval (photos : List Photo) (photoId : Int)
    (userId : Option Int) (patch : PhotoPatch) (p : Photo)
    (hfind : findPhotoById photos photoId = some p)
    (hedit : canEditPhoto (some p) userId = true) :
    updatePhotoWithVisibility photos photoId userId patch =
      (⟨true, "Photo updated successfully"⟩,
        if (patch.title.isNone && patch.description.isNone && patch.visibility.isNone) = true
        then photos else updateFirst photos photoId (applyPatchFields patch)) := by
  by_cases hempty :
      (patch.title.isNone && patch.description.isNone && patch.visibility.isNone) = true
  · simp only [updatePhotoWithVisibility, hfind, hedit, Bool.not_true, Bool.false_eq_true,
      if_false, persistUpdatePhoto, hempty, if_true]
  · have h2 : (patch.title.isNone && patch.description.isNone && patch.visibility.isNone)
        = false := Bool.eq_false_iff.mpr hempty
    simp only [updatePhotoWithVisibility, hfind, hedit, Bool.not_true, Bool.false_eq_true,
      if_false, persistUpdatePhoto, h2, Option.isSome_some, if_true]

/-- C3 counterexample: for the accessible photo 1 updated by its owner 7
with the patch {visibility: "banana"} — a value that is neither public nor
private — the operation reports success and the store now carries
visibility "banana": no ValidationError is produced and the invalid value
is persisted. -/
theorem updatePhoto_invalidVisibility_counterexample :
    ("banana" ≠ "public" ∧ "banana" ≠ "private") ∧
    (updatePhotoWithVisibility demoPhotos 1 (some 7) ⟨none, none, some "banana"⟩).1.success
      = true ∧
    (updatePhotoWithVisibility demoPhotos 1 (some 7) ⟨none, none, some "banana"⟩).2 =
      [⟨1, "a.jpg", "Sunset", "evening", ["sunset"], [4], "banana", 7, "2024-01-01"⟩] := by
  decide

/-- C3 amended: the update pipeline performs no validation of the
visibility value — for an existing photo and an authorized editor, a patch
whose visibility field is present with any string value succeeds and that
value is persisted verbatim. -/
theorem updatePhoto_visibility_unvalidated (photos : List Photo) (photoId : Int)
    (userId : Option Int) (patch : PhotoPatch) (p : Photo) (v : String)
    (hvis : patch.visibility = some v)
    (hfind : findPhotoById photos photoId = some p)
    (hedit : canEditPhoto (some p) userId = true) :
    (updatePhotoWithVisibility photos photoId userId patch).1.success = true ∧
    ∃ p2, findPhotoById (updatePhotoWithVisibility photos photoId userId patch).2 photoId
        = some p2 ∧ p2.visibility = v := by
  rw [updatePhotoWithVisibility_eval photos photoId userId patch p hfind hedit]
  have hempty : (patch.title.isNone && patch.description.isNone && patch.visibility.isNone)
      = false := by rw [hvis]; simp
  refine ⟨rfl, applyPatchFields patch p, ?_, ?_⟩
  · simp only [hempty, Bool.false_eq_true, if_false]
    rw [findPhotoById_updateFirst photos photoId (applyPatchFields patch)
      (applyPatchFields_id patch), hfind]
    rfl
  · show patch.visibility.getD p.visibility = v
    rw [hvis]
    rfl

/-- C3 witness: the amended statement instantiated on the demonstration
store with the out-of-range visibility value "banana". -/
theorem updatePhoto_visibility_unvalidated_witness :
    (updatePhotoWithVisibility demoPhotos 1 (some 7) ⟨none, none, some "banana"⟩).1.success
      = true ∧
    ∃ p2, findPhotoById
        (updatePhotoWithVisibility demoPhotos 1 (some 7) ⟨none, none, some "banana"⟩).2 1
      = some p2 ∧ p2.visibility = "banana" :=
  updatePhoto_visibility_unvalidated demoPhotos 1 (some 7) ⟨none, none, some "banana"⟩
    demoPhoto "banana" rfl (by decide) (by decide)

/-- C6: an accepted update changes, in the stored photo, exactly the
fields present in the patch; a field absent from the patch keeps its
previous value, and all other fields — id, filename, tags, albums, owner
and date — are unchanged by the operation. -/
theorem updatePhoto_frame (photos : List Photo) (photoId : Int) (userId : Option Int)
    (patch : PhotoPatch) (p : Photo)
    (hfind : findPhotoById photos photoId = some p)
    (hedit : canEditPhoto (some p) userId = true) :
    (updatePhotoWithVisibility photos photoId userId patch).1.success = true ∧
    ∃ p2, findPhotoById (updatePhotoWithVisibility photos photoId userId patch).2 photoId
        = some p2 ∧
      p2.title = patch.title.getD p.title ∧
      p2.description = patch.description.getD p.description ∧
      p2.visibility = patch.visibility.getD p.visibility ∧
      p2.id = p.id ∧ p2.filename = p.filename ∧ p2.tags = p.tags ∧
      p2.albums = p.albums ∧ p2.owner = p.owner ∧ p2.date = p.date := by
  rw [updatePhotoWithVisibility_eval photos photoId userId patch p hfind hedit]
  refine ⟨rfl, ?_⟩
  by_cases hempty :
      (patch.title.isNone && patch.description.isNone && patch.visibility.isNone) = true
  · have ht : patch.title = none := by
      rcases Bool.and_eq_true_iff.mp hempty with ⟨h1, _⟩
      rcases Bool.and_eq_true_iff.mp h1 with ⟨h2, _⟩
      exact Option.isNone_iff_eq_none.mp h2
    have hd : patch.description = none := by
      rcases Bool.and_eq_true_iff.mp hempty with ⟨h1, _⟩
      rcases Bool.and_eq_true_iff.mp h1 with ⟨_, h3⟩
      exact Option.isNone_iff_eq_none.mp h3
    have hv : patch.visibility = none := by
      rcases Bool.and_eq_true_iff.mp hempty with ⟨_, h4⟩
      exact Option.isNone_iff_eq_none.mp h4
    refine ⟨p, ?_, ?_⟩
    · simp only [hempty, if_true]
      exact hfind
    · simp [ht, hd, hv]
  · have h2 : (patch.title.isNone && patch.description.isNone && patch.visibility.isNone)
        = false := Bool.eq_false_iff.mpr hempty
    refine ⟨applyPatchFields patch p, ?_, ?_⟩
    · simp only [h2, Bool.false_eq_true, if_false]
      rw [findPhotoById_updateFirst photos photoId (applyPatchFields patch)
        (applyPatchFields_id patch), hfind]
      rfl
    · exact ⟨rfl, rfl, rfl, rfl, rfl, rfl, rfl, rfl, rfl⟩

/-- C6 witness: patching only the title on the demonstration store keeps
description, visibility and owner intact. -/
theorem updatePhoto_frame_witness :
    (updatePhotoWithVisibility demoPhotos 1 (some 7) ⟨some "New title", none, none⟩).1.success
      = true ∧
    ∃ p2, findPhotoById
        (updatePhotoWithVisibility demoPhotos 1 (some 7) ⟨some "New title", none, none⟩).2 1
      = some p2 ∧
      p2.title = (some "New title").getD demoPhoto.title ∧
      p2.description = (none : Option String).getD demoPhoto.description ∧
      p2.visibility = (none : Option String).getD demoPhoto.visibility ∧
      p2.id = demoPhoto.id ∧ p2.filename = demoPhoto.filename ∧ p2.tags = demoPhoto.tags ∧
      p2.albums = demoPhoto.albums ∧ p2.owner = demoPhoto.owner ∧ p2.date = demoPhoto.date :=
  updatePhoto_frame demoPhotos 1 (some 7) ⟨some "New title", none, none⟩ demoPhoto
    (by decide) (by decide)

/-- C8: for an existing photo and an authorized editor, running the same
patch twice leaves the store in exactly the state reached after running it
once. -/
theorem updatePhoto_idempotent (photos : List Photo) (photoId : Int) (userId : Option Int)
    (patch : PhotoPatch) (p : Photo)
    (hfind : findPhotoById photos photoId = some p)
    (hedit : canEditPhoto (some p) userId = true) :
    (updatePhotoWithVisibility
        (updatePhotoWithVisibility photos photoId userId patch).2 photoId userId patch).2
      = (updatePhotoWithVisibility photos photoId userId patch).2 := by
  have h1 := updatePhotoWithVisibility_eval photos photoId userId patch p hfind hedit
  by_cases hempty :
      (patch.title.isNone && patch.description.isNone && patch.visibility.isNone) = true
  · have hs1 : (updatePhotoWithVisibility photos photoId userId patch).2 = photos := by
      rw [h1]
      simp only [hempty, if_true]
    rw [hs1, hs1]
  · have h2 : (patch.title.isNone && patch.description.isNone && patch.visibility.isNone)
        = false := Bool.eq_false_iff.mpr hempty
    have hs1 : (updatePhotoWithVisibility photos photoId userId patch).2
        = updateFirst photos photoId (applyPatchFields patch) := by
      rw [h1]
      simp only [h2, Bool.false_eq_true, if_false]
    have hfind2 : findPhotoById (updateFirst photos photoId (applyPatchFields patch)) photoId
        = some (applyPatchFields patch p) := by
      rw [findPhotoById_updateFirst photos photoId (applyPatchFields patch)
        (applyPatchFields_id patch), hfind]
      rfl
    have hedit2 : canEditPhoto (some (applyPatchFields patch p)) userId = true := by
      rw [canEditPhoto_applyPatchFields]
      exact hedit
    have h3 := updatePhotoWithVisibility_eval
      (updateFirst photos photoId (applyPatchFields patch)) photoId userId patch
      (applyPatchFields patch p) hfind2 hedit2
    rw [hs1, h3]
    simp only [h2, Bool.false_eq_true, if_false]
    exact updateFirst_idem photos photoId (applyPatchFields patch)
      (applyPatchFields_id patch) (applyPatchFields_idem patch)

/-- C8 witness: applying the patch {title: "A"} twice on the demonstration
store equals applying it once. -/
theorem updatePhoto_idempotent_witness :
    (updatePhotoWithVisibility
        (updatePhotoWithVisibility demoPhotos 1 (some 7) ⟨some "A", none, none⟩).2 1 (some 7)
        ⟨some "A", none, none⟩).2
      = (updatePhotoWithVisibility demoPhotos 1 (some 7) ⟨some "A", none, none⟩).2 :=
  updatePhoto_idempotent demoPhotos 1 (some 7) ⟨some "A", none, none⟩ demoPhoto
    (by decide) (by decide)

/-! ## Theorems about comments -/

/-- Every stored comment id is bounded by the collection maximum. -/
theorem mem_id_le_maxCommentId {c : Comment} {comments : List Comment}
    (h : c ∈ comments) : c.id ≤ maxCommentId comments := by
  induction comments with
  | nil => cases h
  | cons d rest ih =>
    rcases List.mem_cons.mp h with rfl | hrest
    · exact le_max_left _ _
    · exact le_trans (ih hrest) (le_max_right _ _)

/-- C5: addComment rejects blank text without creating a record, then a
missing photo, and denies permission exactly when the photo exists, the
text is non-blank, and the caller cannot view the photo; on success it
appends to the store and returns a fresh comment carrying the trimmed
text, the caller identity, and the server timestamp. -/
theorem addComment_spec (photos : List Photo) (comments : List Comment) (photoId : Int)
    (userId : Int) (username : String) (text : String) (now : Nat) :
    (jsTrim text = "" →
      (addComment photos comments photoId userId username text now).1
          = ⟨false, "Comment cannot be empty", none⟩ ∧
        (addComment photos comments photoId userId username text now).2 = comments) ∧
    (jsTrim text ≠ "" → findPhotoById photos photoId = none →
      (addComment photos comments photoId userId username text now).1
          = ⟨false, "Photo not found", none⟩ ∧
        (addComment photos comments photoId userId username text now).2 = comments) ∧
    ((addComment photos comments photoId userId username text now).1.message
        = "You cannot comment on this photo" ↔
      (jsTrim text ≠ "" ∧ ∃ p, findPhotoById photos photoId = some p ∧
        canViewPhoto (some p) (some userId) = false)) ∧
    ((addComment photos comments photoId userId username text now).1.message
        = "You cannot comment on this photo" →
      (addComment photos comments photoId userId username text now).2 = comments) ∧
    (∀ p, jsTrim text ≠ "" → findPhotoById photos photoId = some p →
      canViewPhoto (some p) (some userId) = true →
      ∃ c, (addComment photos comments photoId userId username text now).1
          = ⟨true, "Comment added successfully", some c⟩ ∧
        (addComment photos comments photoId userId username text now).2 = comments ++ [c] ∧
        c.photoId = photoId ∧ c.userId = userId ∧ c.username = username ∧
        c.text = jsTrim text ∧ c.createdAt = now ∧
        ∀ c0 ∈ comments, c0.id ≠ c.id) := by
  by_cases htrim : jsTrim text = ""
  · have hcond : (jsTrim text == "") = true := beq_iff_eq.mpr htrim
    have hres : addComment photos comments photoId userId username text now
        = (⟨false, "Comment cannot be empty", none⟩, comments) := by
      simp only [addComment, hcond, if_true]
    refine ⟨fun _ => ⟨by rw [hres], by rw [hres]⟩, fun hne => absurd htrim hne, ?_, ?_,
      fun p hne => absurd htrim hne⟩
    · rw [hres]
      constructor
      · intro h
        simp at h
      · rintro ⟨hne, -⟩
        exact absurd htrim hne
    · rw [hres]
      intro _
      rfl
  · have hcond : (jsTrim text == "") = false := by simpa using htrim
    cases hfind : findPhotoById photos photoId with
    | none =>
      have hres : addComment photos comments photoId userId username text now
          = (⟨false, "Photo not found", none⟩, comments) := by
        simp only [addComment, hcond, Bool.false_eq_true, if_false, hfind]
      refine ⟨fun h => absurd h htrim, fun _ _ => ⟨by rw [hres], by rw [hres]⟩, ?_, ?_, ?_⟩
      · rw [hres]
        constructor
        · intro h
          simp at h
        · rintro ⟨-, q, hq, -⟩
          exact Option.noConfusion hq
      · rw [hres]
        intro _
        rfl
      · intro q _ hq
        exact Option.noConfusion hq
    | some p =>
      by_cases hview : canViewPhoto (some p) (some userId) = true
      · have hres : addComment photos comments photoId userId username text now
            = (⟨true, "Comment added successfully",
                some ⟨nextCommentId comments, photoId, userId, username, jsTrim text, now⟩⟩,
              comments ++ [⟨nextCommentId comments, photoId, userId, username,
                jsTrim text, now⟩]) := by
          simp only [addComment, hcond, Bool.false_eq_true, if_false, hfind, hview,
            Bool.not_true, if_false, createComment]
        refine ⟨fun h => absurd h htrim, fun _ h => Option.noConfusion h, ?_, ?_, ?_⟩
        · rw [hres]
          constructor
          · intro h
            simp at h
          · rintro ⟨-, q, hq, hqv⟩
            obtain rfl : p = q := by injection hq
            rw [hview] at hqv
            exact Bool.noConfusion hqv
        · rw [hres]
          intro h
          simp at h
        · intro q _ hq _
          obtain rfl : p = q := by injection hq
          refine ⟨⟨nextCommentId comments, photoId, userId, username, jsTrim text, now⟩,
            by rw [hres], by rw [hres], rfl, rfl, rfl, rfl, rfl, ?_⟩
          intro c0 hc0
          have hle := mem_id_le_maxCommentId hc0
          simp only [nextCommentId]
          omega
      · have hview2 : canViewPhoto (some p) (some userId) = false :=
          Bool.eq_false_iff.mpr hview
        have hres : addComment photos comments photoId userId username text now
            = (⟨false, "You cannot comment on this photo", none⟩, comments) := by
          simp only [addComment, hcond, Bool.false_eq_true, if_false, hfind, hview2,
            Bool.not_false, if_true]
        refine ⟨fun h => absurd h htrim, fun _ h => Option.noConfusion h, ?_, ?_, ?_⟩
        · rw [hres]
          constructor
          · intro _
            exact ⟨htrim, p, rfl, hview2⟩
          · intro _
            rfl
        · rw [hres]
          intro _
          rfl
        · intro q _ hq hqv
          obtain rfl : p = q := by injection hq
          rw [hqv] at hview2
          exact Bool.noConfusion hview2

/-! ## Theorems about tags -/

/-- C7 counterexample: the tag operation performs no emptiness validation —
called by the owner with the empty string (which trims to the empty
string) on a photo that does not yet carry it, it reports success and
persists the empty tag instead of returning a ValidationError. -/
theorem addTag_emptyTag_counterexample :
    jsTrim "" = "" ∧
    (addTagToPhoto demoPhotos 1 7 "").1.success = true ∧
    (addTagToPhoto demoPhotos 1 7 "").2 =
      [⟨1, "a.jpg", "Sunset", "evening", ["sunset", ""], [4], "private", 7, "2024-01-01"⟩] := by
  decide

/-- C7 amended: addTag fails on a missing photo, then on a non-owner, then
on an exact duplicate (leaving the store untouched); otherwise it appends
the tag — with no emptiness check, so a blank tag is appended like any
other (the CLI presentation layer screens blank tags before calling) —
and persists the new tag list. -/
theorem addTag_spec_amended (photos : List Photo) (photoId : Int) (userId : Int)
    (tag : String) :
    (findPhotoById photos photoId = none →
      addTagToPhoto photos photoId userId tag = (⟨false, "Photo not found."⟩, photos)) ∧
    (∀ p, findPhotoById photos photoId = some p → p.owner ≠ userId →
      addTagToPhoto photos photoId userId tag
        = (⟨false, "Access denied. You do not own this photo."⟩, photos)) ∧
    (∀ p, findPhotoById photos photoId = some p → p.owner = userId →
      p.tags.contains tag = true →
      addTagToPhoto photos photoId userId tag
        = (⟨false, "Photo already has this tag."⟩, photos)) ∧
    (∀ p, findPhotoById photos photoId = some p → p.owner = userId →
      p.tags.contains tag = false →
      (addTagToPhoto photos photoId userId tag).1 = ⟨true, "Updated!"⟩ ∧
      findPhotoById (addTagToPhoto photos photoId userId tag).2 photoId
        = some { p with tags := p.tags ++ [tag] }) := by
  refine ⟨?_, ?_, ?_, ?_⟩
  · intro hfind
    simp only [addTagToPhoto, hfind]
  · intro p hfind hne
    have hbne : (p.owner != userId) = true := by simpa using hne
    simp only [addTagToPhoto, hfind, hbne, if_true]
  · intro p hfind heq hdup
    have hbne : (p.owner != userId) = false := by simpa using heq
    simp only [addTagToPhoto, hfind, hbne, Bool.false_eq_true, if_false, hdup, if_true]
  · intro p hfind heq hdup
    have hbne : (p.owner != userId) = false := by simpa using heq
    have hres : addTagToPhoto photos photoId userId tag
        = (⟨true, "Updated!"⟩,
          updateFirst photos photoId (fun q => { q with tags := p.tags ++ [tag] })) := by
      simp only [addTagToPhoto, hbne, Bool.false_eq_true, if_false, hdup, hfind,
        persistUpdateTags]
    rw [hres]
    refine ⟨rfl, ?_⟩
    rw [findPhotoById_updateFirst photos photoId
      (fun q => { q with tags := p.tags ++ [tag] }) (fun q => rfl), hfind]
    rfl

/-! ## Ordering of listed comments -/

/-- C10 counterexample: on the demonstration store, listing the two
createdAt-tied comments of photo 1 in descending id order is an admissible
return of find({photoId: 1}).sort({createdAt: 1}) — it is a reordering of
exactly the photo's comments, ascending in createdAt — yet it is not in
ascending id order at the tie, so the claimed tie-break is not guaranteed
by the code. -/
theorem listComments_tieOrder_counterexample :
    getCommentsByPhotoIdRel demoComments 1
      [⟨2, 1, 9, "Bob", "second", 10⟩, ⟨1, 1, 7, "Alice", "first", 10⟩] ∧
    ¬ List.Pairwise commentLex
      [⟨2, 1, 9, "Bob", "second", 10⟩, ⟨1, 1, 7, "Alice", "first", 10⟩] := by
  constructor
  · constructor
    · show List.Perm _ (demoComments.filter (fun c => c.photoId == 1))
      have hfil : demoComments.filter (fun c => c.photoId == 1) =
          [⟨1, 1, 7, "Alice", "first", 10⟩, ⟨2, 1, 9, "Bob", "second", 10⟩] := rfl
      rw [hfil]
      exact List.Perm.swap _ _ _
    · decide
  · decide

/-- C10 amended: every list that listComments may return consists of
exactly the photo's comments in ascending createdAt order — the relative
order of comments sharing a createdAt is unspecified — and when the photo
has no comments the returned list is empty, not an error. -/
theorem listComments_spec_amended (comments : List Comment) (photoId : Int)
    (result : List Comment)
    (h : getCommentsByPhotoIdRel comments photoId result) :
    result.Pairwise commentLe ∧
    (∀ c, c ∈ result ↔ (c ∈ comments ∧ c.photoId = photoId)) ∧
    ((∀ c ∈ comments, c.photoId ≠ photoId) → result = []) := by
  obtain ⟨hperm, hle⟩ := h
  refine ⟨hle, ?_, ?_⟩
  · intro c
    rw [hperm.mem_iff, List.mem_filter]
    simp
  · intro hnone
    have hfil : comments.filter (fun c => c.photoId == photoId) = [] := by
      rw [List.filter_eq_nil_iff]
      intro c hc
      simpa using hnone c hc
    rw [hfil] at hperm
    exact hperm.eq_nil

/-- C10 witness: the amended statement instantiated with the id-ordered
admissible result for photo 1 of the demonstration store. -/
theorem listComments_spec_amended_witness :
    ([⟨1, 1, 7, "Alice", "first", 10⟩, ⟨2, 1, 9, "Bob", "second", 10⟩] :
        List Comment).Pairwise commentLe ∧
    (∀ c, c ∈ ([⟨1, 1, 7, "Alice", "first", 10⟩, ⟨2, 1, 9, "Bob", "second", 10⟩] :
        List Comment) ↔ (c ∈ demoComments ∧ c.photoId = 1)) ∧
    ((∀ c ∈ demoComments, c.photoId ≠ 1) →
      ([⟨1, 1, 7, "Alice", "first", 10⟩, ⟨2, 1, 9, "Bob", "second", 10⟩] :
        List Comment) = []) :=
  listComments_spec_amended demoComments 1
    [⟨1, 1, 7, "Alice", "first", 10⟩, ⟨2, 1, 9, "Bob", "second", 10⟩]
    ⟨List.Perm.refl _, by decide⟩
